import Mathlib

/-!
Formal model of the PyGCL contrastive-loss and evaluation components.

The definitions below are shallow embeddings of the Python sources under
`src/GCL`: embedding matrices are functions `Fin n → Fin d → ℝ`, masks are
real-valued matrices (the library stores them as `0/1` float tensors),
fallible Python code (assertions, raised exceptions, shape errors) is
embedded with `Except String`, and a Python method whose body is `pass`
returns `Except.ok none` (it silently returns `None`).

Randomness (`torch.randperm`) is passed in explicitly as a permutation
argument, so the split utility is a pure function of its inputs.
-/

namespace PyGCL

/-- Result mapping of `get_split`: the `train` / `valid` / `test` index sets
(src/GCL/eval/eval.py lines 38-42). -/
structure Split where
  train : List ℕ
  valid : List ℕ
  test : List ℕ
deriving DecidableEq, Repr

/-- Return value of `get_split`: a single mapping when `num_splits <= 1`,
otherwise a list of mappings (src/GCL/eval/eval.py line 43). -/
inductive SplitResult where
  | one : Split → SplitResult
  | many : List Split → SplitResult
deriving DecidableEq, Repr

/-- get_split (src/GCL/eval/eval.py lines 11-43).

Ratios are modelled as rationals; Python's `int(...)` on the nonnegative
products `num_samples * ratio` is truncation toward zero, i.e. the floor.
`torch.randperm(num_samples)` is modelled by the externally supplied
`randperm` argument giving the permutation drawn for split `i`.  The
leading `assert train_ratio + test_ratio < 1` raises `AssertionError`
before any size or permutation is computed; `out[0]` on an empty list
(only possible when `num_splits = 0`) raises `IndexError`. -/
def get_split (num_samples : ℕ) (num_splits : ℕ) (train_ratio test_ratio : ℚ)
    (randperm : ℕ → List ℕ) : Except String SplitResult :=
  if train_ratio + test_ratio < 1 then
    let train_size : ℕ := (⌊(num_samples : ℚ) * train_ratio⌋).toNat
    let test_size : ℕ := (⌊(num_samples : ℚ) * test_ratio⌋).toNat
    let out : List Split := (List.range num_splits).map (fun i =>
      let indices := randperm i
      { train := indices.take train_size
        valid := (indices.drop train_size).take test_size
        test := indices.drop (test_size + train_size) })
    if num_splits > 1 then
      Except.ok (SplitResult.many out)
    else
      match out with
      | [] => Except.error "IndexError: list index out of range"
      | s :: _ => Except.ok (SplitResult.one s)
  else
    Except.error "AssertionError: train_ratio + test_ratio < 1"

/-- Parameter names accepted by `BaseSKLearnEvaluator.__init__`
(src/GCL/eval/eval.py lines 127-129); `self` is bound positionally by the
`super()` call and is not a keyword. -/
def baseSKLearnEvaluatorInitParams : List String :=
  ["evaluator", "metric", "split", "param_grid", "search_cv", "refit"]

/-- Keyword arguments that `SVMEvaluator.__init__` passes to
`super().__init__` (src/GCL/eval/svm.py lines 40-42). -/
def svmEvaluatorSuperKwargs : List String :=
  ["evaluator", "metrics", "split", "params", "param_grid",
   "grid_search_scoring", "grid_search_params"]

/-- Python keyword binding for a function without a `**kwargs` catch-all:
any keyword argument that is not a declared parameter name raises
`TypeError: got an unexpected keyword argument ...` (CPython reports the
unexpected keyword even when required parameters are also missing). -/
def bindKwargs (params kwargs : List String) : Except String Unit :=
  match kwargs.filter (fun k => ¬ params.contains k) with
  | [] => Except.ok ()
  | k :: _ =>
      Except.error ("TypeError: __init__() got an unexpected keyword argument " ++ k)

/-- SVMEvaluator.__init__ (src/GCL/eval/svm.py lines 31-42): chooses the
SVM flavour from `linear` (which succeeds and is irrelevant to the
outcome), then calls `BaseSKLearnEvaluator.__init__` with the keyword
arguments listed in `svmEvaluatorSuperKwargs`. -/
def SVMEvaluator_init (linear : Bool) : Except String Unit :=
  bindKwargs baseSKLearnEvaluatorInitParams svmEvaluatorSuperKwargs

noncomputable section

/-- Euclidean norm of a row, as used by `torch.nn.functional.normalize`. -/
def l2norm {d : ℕ} (v : Fin d → ℝ) : ℝ :=
  Real.sqrt (∑ j, v j ^ 2)

/-- F.normalize(v) with the default `p=2, eps=1e-12`: `v / max(norm(v), eps)`. -/
def normalizeRow {d : ℕ} (v : Fin d → ℝ) : Fin d → ℝ :=
  fun j => v j / max (l2norm v) (1e-12 : ℝ)

/-- ContrastInstance: anchor `[n_a, d]`, sample `[n_s, d]`, and the
positive / negative masks `[n_a, n_s]` stored as 0/1 float matrices.
`unpack()` returns exactly these four fields. -/
structure ContrastInstance (na ns d : ℕ) where
  anchor : Fin na → Fin d → ℝ
  sample : Fin ns → Fin d → ℝ
  pos_mask : Fin na → Fin ns → ℝ
  neg_mask : Fin na → Fin ns → ℝ

/-- similarity(h1, h2) = F.normalize(h1) @ F.normalize(h2).t()
(src/GCL/losses/infonce.py lines 8-11). -/
def similarity {n m d : ℕ} (h1 : Fin n → Fin d → ℝ) (h2 : Fin m → Fin d → ℝ) :
    Fin n → Fin m → ℝ :=
  fun i j => ∑ k, normalizeRow (h1 i) k * normalizeRow (h2 j) k

/-- InfoNCE.compute (src/GCL/losses/infonce.py lines 25-32).  `.mean()` of a
1-D tensor of length `n_a` is the sum divided by `n_a`. -/
def InfoNCE_compute (tau : ℝ) {na ns d : ℕ} (ci : ContrastInstance na ns d) : ℝ :=
  let sim : Fin na → Fin ns → ℝ := fun i j => similarity ci.anchor ci.sample i j / tau;
  let exp_sim : Fin na → Fin ns → ℝ :=
    fun i j => Real.exp (sim i j) * (ci.pos_mask i j + ci.neg_mask i j);
  let log_prob : Fin na → Fin ns → ℝ :=
    fun i j => sim i j - Real.log (∑ k, exp_sim i k);
  let loss : Fin na → ℝ :=
    fun i => (∑ j, log_prob i j * ci.pos_mask i j) / (∑ j, ci.pos_mask i j);
  -((∑ i, loss i) / (na : ℝ))

/-- InfoNCE.compute_default_positive (src/GCL/losses/infonce.py lines
34-41); only the anchor and sample of the instance are read, and the
`sim.diag()` access requires anchor and sample to have the same row count. -/
def InfoNCE_compute_default_positive (tau : ℝ) {n d : ℕ}
    (ci : ContrastInstance n n d) : ℝ :=
  let sim : Fin n → Fin n → ℝ :=
    fun i j => Real.exp (similarity ci.anchor ci.sample i j / tau);
  let pos : Fin n → ℝ := fun i => sim i i;
  let neg : Fin n → ℝ := fun i => (∑ j, sim i j) - sim i i;
  let loss : Fin n → ℝ := fun i => -Real.log (pos i / (pos i + neg i));
  (∑ i, loss i) / (n : ℝ)

/-- torch.eye(n): the identity matrix used as the default positive mask. -/
def eyeMask (n : ℕ) : Fin n → Fin n → ℝ :=
  fun i j => if i = j then 1 else 0

/-- Constant matrix, used to build concrete example instances. -/
def constMat (m n : ℕ) (c : ℝ) : Fin m → Fin n → ℝ :=
  fun _ _ => c

/-- torch.Tensor.sum(dim=1, keepdim=True) applied to a 1-D tensor: in
PyTorch the valid dimensions of a 1-D tensor are -1 and 0, so `dim=1`
raises `IndexError`; the call never produces a value. -/
def torchVecSumDim1 {n : ℕ} (v : Fin n → ℝ) : Except String (Fin n → ℝ) :=
  Except.error "IndexError: Dimension out of range (expected to be in range of [-1, 0], but got 1)"

/-- DebiasedInfoNCE.compute (src/GCL/losses/infonce.py lines 71-87).
`.int()` truncates toward zero, which on the nonnegative mask entries is
the floor; `np.e ** (-1. / tau)` is `Real.exp (-1 / tau)`;
`torch.clamp(x, min=c)` is `max x c`.  `pos` and `ng` are 1-D tensors of
length `n_a`, so the source's `(pos + ng).sum(dim=1, keepdim=True)` is a
`dim=1` reduction of a 1-D tensor; the remaining lines are embedded as the
continuation of that fallible call. -/
def DebiasedInfoNCE_compute (tau tau_plus : ℝ) {na ns d : ℕ}
    (ci : ContrastInstance na ns d) : Except String ℝ :=
  let num_neg : ℝ := ∑ i, ∑ j, (⌊ci.neg_mask i j⌋ : ℝ);
  let sim : Fin na → Fin ns → ℝ := fun i j => similarity ci.anchor ci.sample i j / tau;
  let exp_sim : Fin na → Fin ns → ℝ := fun i j => Real.exp (sim i j);
  let pos_sum : Fin na → ℝ := fun i => ∑ j, exp_sim i j * ci.pos_mask i j;
  let pos : Fin na → ℝ := fun i => pos_sum i / (∑ j, (⌊ci.pos_mask i j⌋ : ℝ));
  let neg_sum : Fin na → ℝ := fun i => ∑ j, exp_sim i j * ci.neg_mask i j;
  let ng0 : Fin na → ℝ :=
    fun i => (-num_neg * tau_plus * pos i + neg_sum i) / (1 - tau_plus);
  let ng : Fin na → ℝ := fun i => max (ng0 i) (num_neg * Real.exp (-1 / tau));
  match torchVecSumDim1 (fun i => pos i + ng i) with
  | Except.error e => Except.error e
  | Except.ok z =>
      let log_prob : Fin na → Fin ns → ℝ := fun i j => sim i j - Real.log (z i);
      let loss : Fin na → ℝ :=
        fun i => (∑ j, log_prob i j * ci.pos_mask i j) / (∑ j, ci.pos_mask i j);
      Except.ok ((∑ i, loss i) / (na : ℝ))

/-- RobustInfoNCE.compute (src/GCL/losses/infonce.py lines 52-54): the body
is a `pass` stub (TODO comment), so the call raises nothing and silently
returns `None`. -/
def RobustInfoNCE_compute (tau p q _lambda : ℝ) {na ns d : ℕ}
    (ci : ContrastInstance na ns d) : Except String (Option ℝ) :=
  Except.ok none

/-- DebiasedInfoNCE.compute_default_positive (src/GCL/losses/infonce.py
lines 89-91): a `pass` stub returning `None`. -/
def DebiasedInfoNCE_compute_default_positive (tau tau_plus : ℝ) {na ns d : ℕ}
    (ci : ContrastInstance na ns d) : Except String (Option ℝ) :=
  Except.ok none

/-- HardnessInfoNCE.compute_default_positive (src/GCL/losses/infonce.py
lines 119-121): a `pass` stub returning `None`. -/
def HardnessInfoNCE_compute_default_positive (tau tau_plus beta : ℝ) {na ns d : ℕ}
    (ci : ContrastInstance na ns d) : Except String (Option ℝ) :=
  Except.ok none

/-- F.softplus with the default `beta = 1`: `softplus(x) = log(1 + exp x)`. -/
def softplus (x : ℝ) : ℝ :=
  Real.log (1 + Real.exp x)

/-- The default JSD discriminator: the raw (unnormalized) dot product
`x @ y.t()` (src/GCL/losses/jsd.py line 9). -/
def dotDiscriminator {n m d : ℕ} (x : Fin n → Fin d → ℝ) (y : Fin m → Fin d → ℝ) :
    Fin n → Fin m → ℝ :=
  fun i j => ∑ k, x i k * y j k

/-- JSD.compute with the default dot-product discriminator
(src/GCL/losses/jsd.py lines 13-27).  `.int()` truncates toward zero (the
floor on the nonnegative mask entries); `.sum()` with no dim sums every
entry of the matrix. -/
def JSD_compute {na ns d : ℕ} (ci : ContrastInstance na ns d) : ℝ :=
  let num_neg : ℝ := ∑ i, ∑ j, (⌊ci.neg_mask i j⌋ : ℝ);
  let num_pos : ℝ := ∑ i, ∑ j, (⌊ci.pos_mask i j⌋ : ℝ);
  let sim : Fin na → Fin ns → ℝ := dotDiscriminator ci.anchor ci.sample;
  let E_pos : ℝ :=
    (∑ i, ∑ j, (Real.log 2 - softplus (-(sim i j * ci.pos_mask i j)))) / num_pos;
  let neg_sim : Fin na → Fin ns → ℝ := fun i j => sim i j * ci.neg_mask i j;
  let E_neg : ℝ :=
    (∑ i, ∑ j, (softplus (-(neg_sim i j)) + neg_sim i j - Real.log 2)) / num_neg;
  E_neg - E_pos

open Classical in
/-- The value the specification ascribes to `JSD.compute`: `E_neg - E_pos`
with `E_pos` the mean of `log 2 - softplus(-sim)` over exactly the pairs
with positive mask 1, and `E_neg` the mean of `softplus(-sim) + sim - log 2`
over exactly the pairs with negative mask 1; other pairs contribute to
neither term. -/
def JSD_spec {na ns d : ℕ} (ci : ContrastInstance na ns d) : ℝ :=
  let sim : Fin na → Fin ns → ℝ := dotDiscriminator ci.anchor ci.sample;
  let posPairs := Finset.univ.filter (fun p : Fin na × Fin ns => ci.pos_mask p.1 p.2 = 1);
  let negPairs := Finset.univ.filter (fun p : Fin na × Fin ns => ci.neg_mask p.1 p.2 = 1);
  let E_pos : ℝ :=
    (∑ p in posPairs, (Real.log 2 - softplus (-(sim p.1 p.2)))) / (posPairs.card : ℝ);
  let E_neg : ℝ :=
    (∑ p in negPairs, (softplus (-(sim p.1 p.2)) + sim p.1 p.2 - Real.log 2)) / (negPairs.card : ℝ);
  E_neg - E_pos

open Classical in
/-- The value the specification ascribes to `InfoNCE.compute`: per anchor
row, minus the mean over the positive columns of
`sim - log(sum over the union of positive and negative columns of exp sim)`,
averaged over anchor rows, with `sim` the temperature-scaled normalized
similarity. -/
def InfoNCE_spec (tau : ℝ) {na ns d : ℕ} (ci : ContrastInstance na ns d) : ℝ :=
  let sim : Fin na → Fin ns → ℝ := fun i j => similarity ci.anchor ci.sample i j / tau;
  let posCols : Fin na → Finset (Fin ns) :=
    fun i => Finset.univ.filter (fun j => ci.pos_mask i j = 1);
  let unionCols : Fin na → Finset (Fin ns) :=
    fun i => Finset.univ.filter (fun j => ci.pos_mask i j = 1 ∨ ci.neg_mask i j = 1);
  let rowLoss : Fin na → ℝ := fun i =>
    -((∑ j in posCols i, (sim i j - Real.log (∑ k in unionCols i, Real.exp (sim i k)))) /
      ((posCols i).card : ℝ));
  (∑ i, rowLoss i) / (na : ℝ)

/-- Modelled from the spec: `DefaultSampler.__call__` (GCL/models/sampler.py
is not under src/).  Spec section 4.1: the default sampler requires equal
anchor and sample row counts and builds the positive mask as the identity
matrix and the negative mask as ones minus identity; pre-supplied masks,
when given, are used instead. -/
def DefaultSampler_call {n d : ℕ} (anchor sample : Fin n → Fin d → ℝ)
    (pos_mask neg_mask : Option (Fin n → Fin n → ℝ)) : ContrastInstance n n d :=
  { anchor := anchor
    sample := sample
    pos_mask := pos_mask.getD (eyeMask n)
    neg_mask := neg_mask.getD (fun i j => 1 - eyeMask n i j) }

/-- First direction loss `l1` computed inside `DualBranchContrast.forward`
in L2L mode with the default sampler (src/GCL/models/contrast_model.py
lines 56-60 and 90): the loss applied to the sampler's instance with
anchor `h1` and sample `h2`.  The call `self.loss(contrast_instance=ci1)`
is abstracted as the function `L` (the `Loss.__call__` dispatch lives in
GCL/losses/loss.py, which is not under src/; per spec section 4.2, with
sampler-supplied masks it invokes the variant's `compute`). -/
def dualBranchL2L_l1 {n d : ℕ} (L : ContrastInstance n n d → ℝ)
    (h1 h2 : Fin n → Fin d → ℝ)
    (pos_mask1 neg_mask1 : Option (Fin n → Fin n → ℝ)) : ℝ :=
  L (DefaultSampler_call h1 h2 pos_mask1 neg_mask1)

/-- Second direction loss `l2` of `DualBranchContrast.forward` in L2L mode
with the default sampler (src/GCL/models/contrast_model.py lines 61-63 and
91): anchor and sample roles are swapped. -/
def dualBranchL2L_l2 {n d : ℕ} (L : ContrastInstance n n d → ℝ)
    (h1 h2 : Fin n → Fin d → ℝ)
    (pos_mask2 neg_mask2 : Option (Fin n → Fin n → ℝ)) : ℝ :=
  L (DefaultSampler_call h2 h1 pos_mask2 neg_mask2)

/-- DualBranchContrast.forward in L2L mode with the default sampler
(src/GCL/models/contrast_model.py lines 47-93): the sanity check raises
`RuntimeError` when an extra positive or negative mask is supplied together
with a default sampler; otherwise the two direction losses are computed and
their average `(l1 + l2) * 0.5` is returned.  (In the surviving branch both
extra masks are `None`, so the sampler's extra-mask union contributes
nothing and is omitted from `DefaultSampler_call`.) -/
def DualBranchContrast_L2L_forward {n d : ℕ} (L : ContrastInstance n n d → ℝ)
    (h1 h2 : Fin n → Fin d → ℝ)
    (extra_pos_mask extra_neg_mask : Option (Fin n → Fin n → ℝ))
    (pos_mask1 pos_mask2 neg_mask1 neg_mask2 : Option (Fin n → Fin n → ℝ)) :
    Except String ℝ :=
  match extra_pos_mask, extra_neg_mask with
  | none, none =>
      Except.ok ((dualBranchL2L_l1 L h1 h2 pos_mask1 neg_mask1 +
        dualBranchL2L_l2 L h1 h2 pos_mask2 neg_mask2) * 0.5)
  | _, _ =>
      Except.error "RuntimeError: Default sampler does not support additional positive and negative samples"

/-- A concrete 1x2 instance whose first pair is marked both positive and
negative (overlapping masks). -/
def overlapCI : ContrastInstance 1 2 1 :=
  { anchor := constMat 1 1 1
    sample := constMat 2 1 1
    pos_mask := constMat 1 2 1
    neg_mask := fun _ j => if j = 0 then 1 else 0 }

/-- A concrete 1x2 instance with one positive and one negative pair. -/
def smallCI : ContrastInstance 1 2 1 :=
  { anchor := constMat 1 1 1
    sample := constMat 2 1 1
    pos_mask := fun _ j => if j = 0 then 1 else 0
    neg_mask := fun _ j => if j = 0 then 0 else 1 }

/-- ReweightedInfoNCE.compute_default_positive (src/GCL/losses/infonce.py
lines 230-231): unconditionally raises `RuntimeError` before any
computation. -/
def ReweightedInfoNCE_compute_default_positive (tau : ℝ) {na ns d : ℕ}
    (ci : ContrastInstance na ns d) : Except String (Option ℝ) :=
  Except.error "RuntimeError: Reweighted sampler does not support computation with default positive samples"

end

end PyGCL

namespace PyGCL

/-- C1: `DebiasedInfoNCE.compute` never returns the claimed
`-mean_rows(mean_pos_cols(log_prob))`: on every input it raises an
`IndexError`, because `pos + ng` is a 1-D tensor of length `n_a` and the
source reduces it with `.sum(dim=1, keepdim=True)`, a dimension that does
not exist for a 1-D tensor (and the final line would in any case return
`loss.mean()` without the negation InfoNCE applies). -/
theorem C1_debiased_compute_raises (tau tau_plus : ℝ) (na ns d : ℕ)
    (ci : ContrastInstance na ns d) :
    DebiasedInfoNCE_compute tau tau_plus ci =
      Except.error "IndexError: Dimension out of range (expected to be in range of [-1, 0], but got 1)" := rfl

/-- Concrete 1x1 contrast instance used to exercise the stub methods. -/
def trivialCI : ContrastInstance 1 1 1 :=
  { anchor := fun _ _ => 0
    sample := fun _ _ => 0
    pos_mask := fun _ _ => 1
    neg_mask := fun _ _ => 0 }

/-- C2 (counterexample): at a concrete instance, `RobustInfoNCE.compute`,
`DebiasedInfoNCE.compute_default_positive` and
`HardnessInfoNCE.compute_default_positive` all return `None` without
raising, refuting the claim that every such call fails loudly with an
error and never silently returns `None`. -/
theorem C2_stub_counterexample :
    RobustInfoNCE_compute 1 1 1 1 trivialCI = Except.ok none ∧
    DebiasedInfoNCE_compute_default_positive 1 (1/10) trivialCI = Except.ok none ∧
    HardnessInfoNCE_compute_default_positive 1 (1/10) 1 trivialCI = Except.ok none :=
  ⟨rfl, rfl, rfl⟩

/-- C2 (amended): for every input, the intentionally unimplemented methods
`RobustInfoNCE.compute`, `DebiasedInfoNCE.compute_default_positive` and
`HardnessInfoNCE.compute_default_positive` raise no error and silently
return `None` — their bodies are `pass` stubs. -/
theorem C2_stubs_return_none (tau p q lam tau_plus beta : ℝ) (na ns d : ℕ)
    (ci : ContrastInstance na ns d) :
    RobustInfoNCE_compute tau p q lam ci = Except.ok none ∧
    DebiasedInfoNCE_compute_default_positive tau tau_plus ci = Except.ok none ∧
    HardnessInfoNCE_compute_default_positive tau tau_plus beta ci = Except.ok none :=
  ⟨rfl, rfl, rfl⟩

/-- C7: for every contrast instance and temperature,
`ReweightedInfoNCE.compute_default_positive` immediately raises
`RuntimeError` — it performs no loss computation and returns no value. -/
theorem C7_reweighted_default_positive_raises (tau : ℝ) (na ns d : ℕ)
    (ci : ContrastInstance na ns d) :
    ReweightedInfoNCE_compute_default_positive tau ci =
      Except.error "RuntimeError: Reweighted sampler does not support computation with default positive samples" := rfl

/-- C10: for either value of `linear`, `SVMEvaluator.__init__` fails with a
`TypeError`, because it forwards the keyword arguments `metrics`, `params`,
`grid_search_scoring` and `grid_search_params` to
`BaseSKLearnEvaluator.__init__`, whose parameters are only `evaluator`,
`metric`, `split`, `param_grid`, `search_cv` and `refit`; no instance is
ever created. -/
theorem C10_svm_evaluator_init_raises (linear : Bool) :
    SVMEvaluator_init linear =
      Except.error "TypeError: __init__() got an unexpected keyword argument metrics" := rfl

/-- Closed form of `InfoNCE.compute_default_positive`: per row, the loss is
`log(sum_j exp(sim i j)) - sim i i` with `sim` the temperature-scaled
normalized similarity. -/
theorem infonce_default_closed {n d : ℕ} (hn : 0 < n) (tau : ℝ)
    (ci : ContrastInstance n n d) :
    InfoNCE_compute_default_positive tau ci =
      (∑ i, (Real.log (∑ j, Real.exp (similarity ci.anchor ci.sample i j / tau)) -
        similarity ci.anchor ci.sample i i / tau)) / (n : ℝ) := by
  have hne : Nonempty (Fin n) := Fin.pos_iff_nonempty.mp hn
  unfold InfoNCE_compute_default_positive
  dsimp only
  congr 1
  refine Finset.sum_congr rfl (fun i _ => ?_)
  have hS : (0 : ℝ) < ∑ j, Real.exp (similarity ci.anchor ci.sample i j / tau) :=
    Finset.sum_pos (fun j _ => Real.exp_pos _) Finset.univ_nonempty
  have hden : Real.exp (similarity ci.anchor ci.sample i i / tau) +
      ((∑ j, Real.exp (similarity ci.anchor ci.sample i j / tau)) -
        Real.exp (similarity ci.anchor ci.sample i i / tau)) =
      ∑ j, Real.exp (similarity ci.anchor ci.sample i j / tau) := by ring
  rw [hden, Real.log_div (Real.exp_ne_zero _) (ne_of_gt hS), Real.log_exp]
  ring

/-- Closed form of `InfoNCE.compute` when the positive mask is the identity
and the negative mask its complement: the same per-row expression as the
default-positive path. -/
theorem infonce_identity_mask_closed {n d : ℕ} (tau : ℝ)
    (anchor sample : Fin n → Fin d → ℝ) :
    InfoNCE_compute tau
        { anchor := anchor, sample := sample,
          pos_mask := eyeMask n, neg_mask := fun i j => 1 - eyeMask n i j } =
      (∑ i, (Real.log (∑ j, Real.exp (similarity anchor sample i j / tau)) -
        similarity anchor sample i i / tau)) / (n : ℝ) := by
  unfold InfoNCE_compute
  dsimp only
  rw [← neg_div, ← Finset.sum_neg_distrib]
  congr 1
  refine Finset.sum_congr rfl (fun i _ => ?_)
  have hw : ∀ k : Fin n, eyeMask n i k + (1 - eyeMask n i k) = (1 : ℝ) :=
    fun k => by ring
  simp only [hw, mul_one]
  have hsel : (∑ j, (similarity anchor sample i j / tau -
      Real.log (∑ k, Real.exp (similarity anchor sample i k / tau))) * eyeMask n i j) =
      similarity anchor sample i i / tau -
        Real.log (∑ k, Real.exp (similarity anchor sample i k / tau)) := by
    simp [eyeMask, mul_ite, mul_one, mul_zero]
  have hcard : (∑ j, eyeMask n i j) = (1 : ℝ) := by
    simp [eyeMask]
  rw [hsel, hcard, div_one]
  ring

/-- C4: for every pair of equally sized embedding matrices with at least
two rows, `InfoNCE.compute_default_positive` (which ignores the stored
masks) equals `InfoNCE.compute` with positive mask `torch.eye(n)` and
negative mask its complement. -/
theorem C4_default_positive_eq_identity_masks (tau : ℝ) (n d : ℕ) (h : 2 ≤ n)
    (anchor sample : Fin n → Fin d → ℝ) (pm nm : Fin n → Fin n → ℝ) :
    InfoNCE_compute_default_positive tau
        { anchor := anchor, sample := sample, pos_mask := pm, neg_mask := nm } =
      InfoNCE_compute tau
        { anchor := anchor, sample := sample,
          pos_mask := eyeMask n, neg_mask := fun i j => 1 - eyeMask n i j } := by
  have hn : 0 < n := by omega
  rw [infonce_default_closed hn, infonce_identity_mask_closed]

/-- C4 witness: the equivalence instantiated at a concrete pair of 2x1
embedding matrices. -/
theorem C4_default_positive_eq_identity_masks_witness :
    2 ≤ 2 ∧
    InfoNCE_compute_default_positive 1
        { anchor := constMat 2 1 1, sample := constMat 2 1 1,
          pos_mask := constMat 2 2 0, neg_mask := constMat 2 2 0 } =
      InfoNCE_compute 1
        { anchor := constMat 2 1 1, sample := constMat 2 1 1,
          pos_mask := eyeMask 2, neg_mask := fun i j => 1 - eyeMask 2 i j } :=
  ⟨by norm_num,
   C4_default_positive_eq_identity_masks 1 2 1 (by norm_num)
     (constMat 2 1 1) (constMat 2 1 1) (constMat 2 2 0) (constMat 2 2 0)⟩

/-- softplus vanishes against `log 2` at zero: `softplus 0 = log 2`. -/
theorem softplus_zero : softplus 0 = Real.log 2 := by
  norm_num [softplus, Real.exp_zero]

/-- Summing a masked entrywise term over the whole matrix equals summing
the unmasked term over the pairs where the 0/1 mask is 1, whenever the
term vanishes at a zero argument. -/
theorem mask_sum_filter {na ns : ℕ} (M : Fin na → Fin ns → ℝ)
    (hb : ∀ i j, M i j = 0 ∨ M i j = 1) (f : Fin na → Fin ns → ℝ)
    (F : ℝ → ℝ) (hF0 : F 0 = 0)
    [DecidablePred (fun p : Fin na × Fin ns => M p.1 p.2 = 1)] :
    (∑ i, ∑ j, F (f i j * M i j)) =
      ∑ p in Finset.univ.filter (fun p : Fin na × Fin ns => M p.1 p.2 = 1),
        F (f p.1 p.2) := by
  rw [Finset.sum_filter, ← Finset.univ_product_univ, Finset.sum_product]
  refine Finset.sum_congr rfl (fun i _ => Finset.sum_congr rfl (fun j _ => ?_))
  rcases hb i j with h | h
  · simp [h, hF0]
  · simp [h]

/-- The `.int().sum()` count of a 0/1 mask equals the number of pairs where
the mask is 1. -/
theorem mask_count_filter {na ns : ℕ} (M : Fin na → Fin ns → ℝ)
    (hb : ∀ i j, M i j = 0 ∨ M i j = 1)
    [DecidablePred (fun p : Fin na × Fin ns => M p.1 p.2 = 1)] :
    (∑ i, ∑ j, (⌊M i j⌋ : ℝ)) =
      ((Finset.univ.filter (fun p : Fin na × Fin ns => M p.1 p.2 = 1)).card : ℝ) := by
  rw [← Finset.sum_boole, ← Finset.univ_product_univ, Finset.sum_product]
  refine Finset.sum_congr rfl (fun i _ => Finset.sum_congr rfl (fun j _ => ?_))
  rcases hb i j with h | h
  · simp [h]
  · simp [h]

/-- C6: for every instance whose 0/1 masks each contain at least one 1,
`JSD.compute` with the default dot-product discriminator returns exactly
`E_neg - E_pos` with `E_pos` the mean of `log 2 - softplus(-sim)` over the
positive pairs and `E_neg` the mean of `softplus(-sim) + sim - log 2` over
the negative pairs, other pairs contributing to neither term. -/
theorem C6_jsd_compute_eq_spec {na ns d : ℕ} (ci : ContrastInstance na ns d)
    (hbp : ∀ i j, ci.pos_mask i j = 0 ∨ ci.pos_mask i j = 1)
    (hbn : ∀ i j, ci.neg_mask i j = 0 ∨ ci.neg_mask i j = 1)
    (hp : ∃ i j, ci.pos_mask i j = 1)
    (hn : ∃ i j, ci.neg_mask i j = 1) :
    JSD_compute ci = JSD_spec ci := by
  classical
  have hP := mask_sum_filter ci.pos_mask hbp
    (dotDiscriminator ci.anchor ci.sample)
    (fun x => Real.log 2 - softplus (-x)) (by simp [softplus_zero])
  have hN := mask_sum_filter ci.neg_mask hbn
    (dotDiscriminator ci.anchor ci.sample)
    (fun x => softplus (-x) + x - Real.log 2) (by simp [softplus_zero])
  have hPc := mask_count_filter ci.pos_mask hbp
  have hNc := mask_count_filter ci.neg_mask hbn
  simp only at hP hN
  unfold JSD_compute JSD_spec
  dsimp only
  rw [hP, hN, hPc, hNc]

/-- C6 witness: the equality instantiated at the concrete instance
`smallCI`, whose masks are 0/1 with one positive and one negative pair. -/
theorem C6_jsd_compute_eq_spec_witness :
    (∀ i j, smallCI.pos_mask i j = 0 ∨ smallCI.pos_mask i j = 1) ∧
    (∀ i j, smallCI.neg_mask i j = 0 ∨ smallCI.neg_mask i j = 1) ∧
    (∃ i j, smallCI.pos_mask i j = 1) ∧
    (∃ i j, smallCI.neg_mask i j = 1) ∧
    JSD_compute smallCI = JSD_spec smallCI := by
  have hbp : ∀ i j, smallCI.pos_mask i j = 0 ∨ smallCI.pos_mask i j = 1 := by
    intro i j
    by_cases h : j = (0 : Fin 2) <;> simp [smallCI, h]
  have hbn : ∀ i j, smallCI.neg_mask i j = 0 ∨ smallCI.neg_mask i j = 1 := by
    intro i j
    by_cases h : j = (0 : Fin 2) <;> simp [smallCI, h]
  have hp : ∃ i j, smallCI.pos_mask i j = 1 := ⟨0, 0, by simp [smallCI]⟩
  have hn : ∃ i j, smallCI.neg_mask i j = 1 := ⟨0, 1, by simp [smallCI]⟩
  exact ⟨hbp, hbn, hp, hn, C6_jsd_compute_eq_spec smallCI hbp hbn hp hn⟩

/-- C8: in L2L mode with the default sampler, symmetric inputs `h1 = h2`
and no user-supplied per-direction or extra masks, the two direction
losses computed inside `DualBranchContrast.forward` are equal, and the
value returned is their average `(l1 + l2) * 0.5`; this holds for every
loss function `L`. -/
theorem C8_dual_branch_l2l_symmetric {n d : ℕ} (L : ContrastInstance n n d → ℝ)
    (h1 h2 : Fin n → Fin d → ℝ) (hsym : h1 = h2) :
    dualBranchL2L_l1 L h1 h2 none none = dualBranchL2L_l2 L h1 h2 none none ∧
    DualBranchContrast_L2L_forward L h1 h2 none none none none none none =
      Except.ok ((dualBranchL2L_l1 L h1 h2 none none +
        dualBranchL2L_l2 L h1 h2 none none) * 0.5) := by
  subst hsym
  exact ⟨rfl, rfl⟩

/-- C8 witness: the symmetry instantiated with the JSD loss on a concrete
pair of equal 2x1 embedding matrices. -/
theorem C8_dual_branch_l2l_symmetric_witness :
    constMat 2 1 1 = constMat 2 1 1 ∧
    ((dualBranchL2L_l1 (JSD_compute : ContrastInstance 2 2 1 → ℝ)
        (constMat 2 1 1) (constMat 2 1 1) none none =
      dualBranchL2L_l2 (JSD_compute : ContrastInstance 2 2 1 → ℝ)
        (constMat 2 1 1) (constMat 2 1 1) none none) ∧
     DualBranchContrast_L2L_forward (JSD_compute : ContrastInstance 2 2 1 → ℝ)
        (constMat 2 1 1) (constMat 2 1 1) none none none none none none =
       Except.ok ((dualBranchL2L_l1 (JSD_compute : ContrastInstance 2 2 1 → ℝ)
          (constMat 2 1 1) (constMat 2 1 1) none none +
        dualBranchL2L_l2 (JSD_compute : ContrastInstance 2 2 1 → ℝ)
          (constMat 2 1 1) (constMat 2 1 1) none none) * 0.5)) :=
  ⟨rfl, C8_dual_branch_l2l_symmetric (JSD_compute : ContrastInstance 2 2 1 → ℝ)
    (constMat 2 1 1) (constMat 2 1 1) rfl⟩

/-- Column-wise version of the masked-sum reduction: multiplying a row
vector by a 0/1 mask and summing equals summing over the columns where the
mask is 1. -/
theorem mask_col_sum_filter {ns : ℕ} (M : Fin ns → ℝ)
    (hb : ∀ j, M j = 0 ∨ M j = 1) (g : Fin ns → ℝ)
    [DecidablePred (fun j : Fin ns => M j = 1)] :
    (∑ j, g j * M j) = ∑ j in Finset.univ.filter (fun j => M j = 1), g j := by
  rw [Finset.sum_filter]
  refine Finset.sum_congr rfl (fun j _ => ?_)
  rcases hb j with h | h <;> simp [h]

/-- Summing a 0/1 row mask counts the columns where it is 1. -/
theorem mask_col_count_filter {ns : ℕ} (M : Fin ns → ℝ)
    (hb : ∀ j, M j = 0 ∨ M j = 1)
    [DecidablePred (fun j : Fin ns => M j = 1)] :
    (∑ j, M j) = ((Finset.univ.filter (fun j : Fin ns => M j = 1)).card : ℝ) := by
  rw [← Finset.sum_boole]
  refine Finset.sum_congr rfl (fun j _ => ?_)
  rcases hb j with h | h <;> simp [h]

/-- C3 (amended): for 0/1 masks that are disjoint (no pair marked both
positive and negative) and give every row a positive and a negative,
`InfoNCE.compute` returns exactly the specification's formula: the mean
over anchor rows of minus the mean over positive columns of
`sim - log(sum over positive-or-negative columns of exp sim)`. -/
theorem C3_infonce_compute_eq_spec (tau : ℝ) {na ns d : ℕ}
    (ci : ContrastInstance na ns d)
    (hbp : ∀ i j, ci.pos_mask i j = 0 ∨ ci.pos_mask i j = 1)
    (hbn : ∀ i j, ci.neg_mask i j = 0 ∨ ci.neg_mask i j = 1)
    (hdisj : ∀ i j, ¬(ci.pos_mask i j = 1 ∧ ci.neg_mask i j = 1))
    (hp : ∀ i, ∃ j, ci.pos_mask i j = 1)
    (hn : ∀ i, ∃ j, ci.neg_mask i j = 1) :
    InfoNCE_compute tau ci = InfoNCE_spec tau ci := by
  classical
  unfold InfoNCE_compute InfoNCE_spec
  dsimp only
  rw [← neg_div, ← Finset.sum_neg_distrib]
  congr 1
  refine Finset.sum_congr rfl (fun i _ => ?_)
  rw [neg_inj]
  have hD : (∑ k, Real.exp (similarity ci.anchor ci.sample i k / tau) *
      (ci.pos_mask i k + ci.neg_mask i k)) =
      ∑ k in Finset.univ.filter
        (fun k => ci.pos_mask i k = 1 ∨ ci.neg_mask i k = 1),
        Real.exp (similarity ci.anchor ci.sample i k / tau) := by
    rw [Finset.sum_filter]
    refine Finset.sum_congr rfl (fun k _ => ?_)
    rcases hbp i k with h1 | h1 <;> rcases hbn i k with h2 | h2
    · simp [h1, h2]
    · simp [h1, h2]
    · simp [h1, h2]
    · exact absurd ⟨h1, h2⟩ (hdisj i k)
  rw [hD]
  have hNum := mask_col_sum_filter (fun j => ci.pos_mask i j) (hbp i)
    (fun j => similarity ci.anchor ci.sample i j / tau -
      Real.log (∑ k in Finset.univ.filter
        (fun k => ci.pos_mask i k = 1 ∨ ci.neg_mask i k = 1),
        Real.exp (similarity ci.anchor ci.sample i k / tau)))
  have hCnt := mask_col_count_filter (fun j => ci.pos_mask i j) (hbp i)
  simp only at hNum hCnt
  rw [hNum, hCnt]

/-- C3 witness: the amended equality instantiated at the concrete disjoint
instance `smallCI`. -/
theorem C3_infonce_compute_eq_spec_witness :
    (∀ i j, smallCI.pos_mask i j = 0 ∨ smallCI.pos_mask i j = 1) ∧
    (∀ i j, smallCI.neg_mask i j = 0 ∨ smallCI.neg_mask i j = 1) ∧
    (∀ i j, ¬(smallCI.pos_mask i j = 1 ∧ smallCI.neg_mask i j = 1)) ∧
    (∀ i, ∃ j, smallCI.pos_mask i j = 1) ∧
    (∀ i, ∃ j, smallCI.neg_mask i j = 1) ∧
    InfoNCE_compute (1/2) smallCI = InfoNCE_spec (1/2) smallCI := by
  have hbp : ∀ i j, smallCI.pos_mask i j = 0 ∨ smallCI.pos_mask i j = 1 := by
    intro i j
    by_cases h : j = (0 : Fin 2) <;> simp [smallCI, h]
  have hbn : ∀ i j, smallCI.neg_mask i j = 0 ∨ smallCI.neg_mask i j = 1 := by
    intro i j
    by_cases h : j = (0 : Fin 2) <;> simp [smallCI, h]
  have hdisj : ∀ i j, ¬(smallCI.pos_mask i j = 1 ∧ smallCI.neg_mask i j = 1) := by
    intro i j
    by_cases h : j = (0 : Fin 2) <;> simp [smallCI, h]
  have hp : ∀ i : Fin 1, ∃ j, smallCI.pos_mask i j = 1 :=
    fun i => ⟨0, by simp [smallCI]⟩
  have hn : ∀ i : Fin 1, ∃ j, smallCI.neg_mask i j = 1 :=
    fun i => ⟨1, by simp [smallCI]⟩
  exact ⟨hbp, hbn, hdisj, hp, hn,
    C3_infonce_compute_eq_spec (1/2) smallCI hbp hbn hdisj hp hn⟩

/-- The normalized similarity between the all-ones 1-dimensional rows is 1. -/
theorem similarity_const_one (i : Fin 1) (j : Fin 2) :
    similarity (constMat 1 1 1) (constMat 2 1 1) i j = 1 := by
  have hn1 : l2norm (constMat 1 1 1 i) = 1 := by
    simp [l2norm, constMat]
  have hn2 : l2norm (constMat 2 1 1 j) = 1 := by
    simp [l2norm, constMat]
  have hmax : max (1 : ℝ) (1e-12) = 1 := max_eq_left (by norm_num)
  unfold similarity
  simp [normalizeRow, constMat, hn1, hn2, hmax]

/-- On the overlapping instance, `InfoNCE.compute` evaluates to `log 3`:
the pair marked both positive and negative is double-counted in the
partition function. -/
theorem infonce_compute_overlap_eval : InfoNCE_compute 1 overlapCI = Real.log 3 := by
  have hsim : ∀ (i : Fin 1) (j : Fin 2),
      similarity overlapCI.anchor overlapCI.sample i j = 1 :=
    fun i j => similarity_const_one i j
  unfold InfoNCE_compute
  dsimp only
  simp only [hsim, div_one]
  simp only [overlapCI, constMat]
  rw [Fin.sum_univ_one]
  simp only [Fin.sum_univ_two]
  have h10 : ((1 : Fin 2) = 0) = False := by simp
  have h00 : ((0 : Fin 2) = 0) = True := by simp
  simp only [h10, h00, if_true, if_false]
  have h3 : Real.exp 1 * (1 + 1) + Real.exp 1 * (1 + 0) = 3 * Real.exp 1 := by ring
  rw [h3, Real.log_mul (by norm_num) (Real.exp_ne_zero 1), Real.log_exp]
  norm_num

/-- On the overlapping instance, the specification's formula evaluates to
`log 2`: the union of positive and negative columns counts the overlapping
pair once. -/
theorem infonce_spec_overlap_eval : InfoNCE_spec 1 overlapCI = Real.log 2 := by
  have hsim : ∀ (i : Fin 1) (j : Fin 2),
      similarity overlapCI.anchor overlapCI.sample i j = 1 :=
    fun i j => similarity_const_one i j
  unfold InfoNCE_spec
  dsimp only
  simp only [hsim, div_one]
  simp only [overlapCI, constMat]
  simp [Finset.filter_true_of_mem, Finset.sum_const, Finset.card_univ,
    Fintype.card_fin, nsmul_eq_mul]
  rw [Real.log_mul (by norm_num) (Real.exp_ne_zero 1), Real.log_exp]
  norm_num

/-- C3 (counterexample): the overlapping instance satisfies every
hypothesis of the claim (0/1 masks, each row with at least one positive
and one negative), yet `InfoNCE.compute` differs from the claimed formula:
the code weights the overlapped pair twice (`pos_mask + neg_mask = 2`)
while the claim's union-denominator counts it once. -/
theorem C3_infonce_compute_counterexample :
    ((∀ i j, overlapCI.pos_mask i j = 0 ∨ overlapCI.pos_mask i j = 1) ∧
     (∀ i j, overlapCI.neg_mask i j = 0 ∨ overlapCI.neg_mask i j = 1) ∧
     (∀ i, ∃ j, overlapCI.pos_mask i j = 1) ∧
     (∀ i, ∃ j, overlapCI.neg_mask i j = 1)) ∧
    InfoNCE_compute 1 overlapCI ≠ InfoNCE_spec 1 overlapCI := by
  refine ⟨⟨?_, ?_, ?_, ?_⟩, ?_⟩
  · intro i j
    right
    rfl
  · intro i j
    by_cases h : j = (0 : Fin 2) <;> simp [overlapCI, h]
  · exact fun i => ⟨0, rfl⟩
  · exact fun i => ⟨0, by simp [overlapCI]⟩
  · rw [infonce_compute_overlap_eval, infonce_spec_overlap_eval]
    exact (Real.log_lt_log (by norm_num) (by norm_num)).ne'

/-- C9: for every `num_samples`, `num_splits` and permutation source, when
`train_ratio + test_ratio >= 1` (for example 0.6 and 0.5) `get_split` fails
with the leading assertion error before computing any split size or
permutation, producing no partial result. -/
theorem C9_get_split_validates_ratios (num_samples num_splits : ℕ)
    (train_ratio test_ratio : ℚ) (randperm : ℕ → List ℕ)
    (h : 1 ≤ train_ratio + test_ratio) :
    get_split num_samples num_splits train_ratio test_ratio randperm =
      Except.error "AssertionError: train_ratio + test_ratio < 1" := by
  unfold get_split
  rw [if_neg (not_lt.mpr h)]

/-- C9 witness: the concrete call with `train_ratio = 0.6` and
`test_ratio = 0.5` fails with the validation error. -/
theorem C9_get_split_validates_ratios_witness :
    1 ≤ (3/5 : ℚ) + 1/2 ∧
    get_split 10 1 (3/5) (1/2) (fun _ => [0, 1, 2, 3, 4, 5, 6, 7, 8, 9]) =
      Except.error "AssertionError: train_ratio + test_ratio < 1" :=
  ⟨by norm_num,
   C9_get_split_validates_ratios 10 1 (3/5) (1/2)
     (fun _ => [0, 1, 2, 3, 4, 5, 6, 7, 8, 9]) (by norm_num)⟩

/-- C5: `get_split(10, num_splits=1, train_ratio=0.5, test_ratio=0.4)`,
with the drawn permutation taken to be the identity, returns a single
mapping whose `valid` set is the 4-element slice `indices[5:9]` and whose
`test` set is the 1-element slice `indices[9:]` — sizes 4 and 1, not the
sizes 1 and 4 that the claim (and the function's own docstring example,
src/GCL/eval/eval.py lines 27-28) require: the source hands `valid` the
slice of length `test_size` and `test` only the remainder. -/
theorem C5_get_split_valid_test_sizes_swapped :
    get_split 10 1 (1/2) (2/5) (fun _ => [0, 1, 2, 3, 4, 5, 6, 7, 8, 9]) =
      Except.ok (SplitResult.one
        { train := [0, 1, 2, 3, 4], valid := [5, 6, 7, 8], test := [9] }) := by
  unfold get_split
  rw [if_pos (by norm_num : (1/2 : ℚ) + 2/5 < 1)]
  have ht : (⌊((10 : ℕ) : ℚ) * (1/2)⌋).toNat = 5 := by norm_num; rfl
  have he : (⌊((10 : ℕ) : ℚ) * (2/5)⌋).toNat = 4 := by norm_num; rfl
  simp only [ht, he]
  rfl

end PyGCL
